import Mathlib

set_option linter.unusedVariables false

/-!
Shallow embedding of the triangulated-surface pipeline of
`geometry/calc_trisurfaces.py` (BlenderFDS): the quality checks,
material extraction, trisurface export, intersection detection and the
bad-geometry reporter.  Coordinates are exact rationals; the host
`bmesh` is modelled as an indexed triangle mesh with edges derived from
the triangle list.
-/

namespace BFds

/-- A 3-D point/vector with exact rational coordinates. -/
structure Vec3 where
  x : ℚ
  y : ℚ
  z : ℚ
deriving DecidableEq

/-- Componentwise subtraction. -/
def Vec3.sub (a b : Vec3) : Vec3 :=
  ⟨a.x - b.x, a.y - b.y, a.z - b.z⟩

/-- Scalar multiplication. -/
def Vec3.smul (k : ℚ) (a : Vec3) : Vec3 :=
  ⟨k * a.x, k * a.y, k * a.z⟩

/-- Dot product. -/
def Vec3.dot (a b : Vec3) : ℚ :=
  a.x * b.x + a.y * b.y + a.z * b.z

/-- Cross product. -/
def Vec3.cross (a b : Vec3) : Vec3 :=
  ⟨a.y * b.z - a.z * b.y, a.z * b.x - a.x * b.z, a.x * b.y - a.y * b.x⟩

/-- Squared Euclidean norm. -/
def Vec3.normSq (a : Vec3) : ℚ :=
  a.x * a.x + a.y * a.y + a.z * a.z

/-- Squared Euclidean distance. -/
def Vec3.distSq (a b : Vec3) : ℚ :=
  (a.sub b).normSq

instance : Inhabited Vec3 := ⟨⟨0, 0, 0⟩⟩

/-- A triangle of the (already triangulated) bmesh: three vertex indices
in winding order plus the face's material index
(`f.verts[0..2].index`, `f.material_index`). -/
structure Tri where
  v0 : ℕ
  v1 : ℕ
  v2 : ℕ
  mat : ℕ
deriving DecidableEq

instance : Inhabited Tri := ⟨⟨0, 0, 0, 0⟩⟩

/-- The triangulated bmesh snapshot the checks run on: a vertex array and
a triangle array.  Edges and all adjacency are derived from the
triangles, per the Mesh Model's derived edge map. -/
structure BMesh where
  verts : List Vec3
  faces : List Tri
deriving DecidableEq

/-- Normalised (unordered) edge key: the vertex pair sorted ascending. -/
def ekey (a b : ℕ) : ℕ × ℕ :=
  if a ≤ b then (a, b) else (b, a)

/-- The three edge keys of a triangle, in loop order. -/
def Tri.edgeKeys (f : Tri) : List (ℕ × ℕ) :=
  [ekey f.v0 f.v1, ekey f.v1 f.v2, ekey f.v2 f.v0]

/-- The vertex indices of a triangle. -/
def Tri.vertIdxs (f : Tri) : List ℕ :=
  [f.v0, f.v1, f.v2]

/-- Deduplicate keeping the first occurrence of each element. -/
def dedupFirst (l : List (ℕ × ℕ)) : List (ℕ × ℕ) :=
  l.foldl (fun acc e => if e ∈ acc then acc else acc ++ [e]) []

/-- Deduplicate a list of naturals keeping first occurrences. -/
def dedupFirstNat (l : List ℕ) : List ℕ :=
  l.foldl (fun acc e => if e ∈ acc then acc else acc ++ [e]) []

/-- `bm.edges`: the derived edge list, in order of first appearance in
the triangle list. -/
def BMesh.edges (bm : BMesh) : List (ℕ × ℕ) :=
  dedupFirst (bm.faces.flatMap Tri.edgeKeys)

/-- Indices of the faces incident to an edge (the edge's `link_faces`). -/
def BMesh.edgeFaces (bm : BMesh) (e : ℕ × ℕ) : List ℕ :=
  (List.range bm.faces.length).filter
    (fun i => e ∈ (bm.faces.getD i default).edgeKeys)

/-- Edges incident to a vertex (the vertex's `link_edges`). -/
def BMesh.vertEdges (bm : BMesh) (v : ℕ) : List (ℕ × ℕ) :=
  bm.edges.filter (fun e => e.1 = v ∨ e.2 = v)

/-- Indices of the faces incident to a vertex (the vertex's `link_faces`). -/
def BMesh.vertFaces (bm : BMesh) (v : ℕ) : List ℕ :=
  (List.range bm.faces.length).filter
    (fun i => v ∈ (bm.faces.getD i default).vertIdxs)

/-- `edge.is_manifold`: the edge joins exactly two faces. -/
def BMesh.edgeIsManifold (bm : BMesh) (e : ℕ × ℕ) : Bool :=
  (bm.edgeFaces e).length = 2

/-- Whether triangle `f` traverses the directed edge `a → b` in its loop. -/
def Tri.traverses (f : Tri) (a b : ℕ) : Bool :=
  (f.v0 = a && f.v1 = b) || (f.v1 = a && f.v2 = b) || (f.v2 = a && f.v0 = b)

/-- `edge.is_contiguous`: the edge joins exactly two faces and the two
faces traverse it in opposite directions (consistent winding). -/
def BMesh.edgeIsContiguous (bm : BMesh) (e : ℕ × ℕ) : Bool :=
  match (bm.edgeFaces e).map (fun i => bm.faces.getD i default) with
  | [f, g] =>
      (f.traverses e.1 e.2 && g.traverses e.2 e.1) ||
      (f.traverses e.2 e.1 && g.traverses e.1 e.2)
  | _ => false

/-- Two incident faces of `v` are fan-adjacent when they share an edge
incident to `v` that joins exactly two faces. -/
def BMesh.fanAdj (bm : BMesh) (v : ℕ) (i j : ℕ) : Bool :=
  i ≠ j &&
  ((bm.faces.getD i default).edgeKeys.any (fun e =>
    (e.1 = v || e.2 = v) && e ∈ (bm.faces.getD j default).edgeKeys &&
    bm.edgeIsManifold e))

/-- One growth step of the fan-reachability set inside `fs`. -/
def BMesh.fanStep (bm : BMesh) (v : ℕ) (fs : List ℕ) (r : List ℕ) : List ℕ :=
  fs.filter (fun i => i ∈ r || r.any (fun j => bm.fanAdj v i j))

/-- All faces of `fs` reachable from its head through fan adjacency at
`v` (fuel-bounded closure). -/
def BMesh.fanReach (bm : BMesh) (v : ℕ) (fs : List ℕ) : List ℕ :=
  match fs with
  | [] => []
  | i :: _ => Nat.iterate (bm.fanStep v fs) fs.length [i]

/-- `vert.is_manifold`: the vertex has at least one edge, every incident
edge joins one or two faces, at most two incident edges are boundary,
and the incident faces form a single fan region. -/
def BMesh.vertIsManifold (bm : BMesh) (v : ℕ) : Bool :=
  let es := bm.vertEdges v
  let fs := bm.vertFaces v
  !es.isEmpty &&
  es.all (fun e =>
    (bm.edgeFaces e).length = 1 || (bm.edgeFaces e).length = 2) &&
  (es.countP (fun e => (bm.edgeFaces e).length = 1) ≤ 2) &&
  fs.all (fun i => i ∈ bm.fanReach v fs)

/-- `edge.calc_length() <= epsilon_len`, decided exactly: for a
nonnegative tolerance the Euclidean length is at most `epsLen` iff the
squared length is at most `epsLen ^ 2`; for a negative tolerance the
comparison is always false since a length is nonnegative. -/
def BMesh.edgeLenLE (bm : BMesh) (e : ℕ × ℕ) (epsLen : ℚ) : Bool :=
  decide (0 ≤ epsLen) &&
  decide (Vec3.distSq (bm.verts.getD e.1 default) (bm.verts.getD e.2 default)
    ≤ epsLen * epsLen)

/-- Four times the squared area of a triangle: the squared norm of the
cross product of two edge vectors. -/
def BMesh.faceAreaSq4 (bm : BMesh) (f : Tri) : ℚ :=
  let p0 := bm.verts.getD f.v0 default
  let p1 := bm.verts.getD f.v1 default
  let p2 := bm.verts.getD f.v2 default
  Vec3.normSq (Vec3.cross (p1.sub p0) (p2.sub p0))

/-- `face.calc_area() <= epsilon_area`, decided exactly via the squared
form (area = sqrt(faceAreaSq4)/2). -/
def BMesh.faceAreaLE (bm : BMesh) (f : Tri) (epsArea : ℚ) : Bool :=
  decide (0 ≤ epsArea) && decide (bm.faceAreaSq4 f ≤ 4 * (epsArea * epsArea))

/-- A `kd.find_range(bm.verts[i].co, r)` hit: vertex `j` lies within
distance `r` of vertex `i` (decided via squared distance; false for a
negative radius). -/
def BMesh.rangeHit (bm : BMesh) (r : ℚ) (i j : ℕ) : Bool :=
  decide (0 ≤ r) &&
  decide (Vec3.distSq (bm.verts.getD j default) (bm.verts.getD i default)
    ≤ r * r)

/-- The index group returned by `kd.find_range` around vertex `i`. -/
def BMesh.vertGroup (bm : BMesh) (r : ℚ) (i : ℕ) : List ℕ :=
  (List.range bm.verts.length).filter (fun j => bm.rangeHit r i j)

-- Bad-element detectors: the list each `_check_bm_*` builds before
-- deciding whether to raise.

/-- Vertices failing `vert.is_manifold`, in vertex order. -/
def badManifoldVerts (bm : BMesh) : List ℕ :=
  (List.range bm.verts.length).filter (fun v => !bm.vertIsManifold v)

/-- Edges failing `edge.is_manifold`, in derived edge order. -/
def badManifoldEdges (bm : BMesh) : List (ℕ × ℕ) :=
  bm.edges.filter (fun e => !bm.edgeIsManifold e)

/-- Edges failing `edge.is_contiguous`, in derived edge order. -/
def badContiguousEdges (bm : BMesh) : List (ℕ × ℕ) :=
  bm.edges.filter (fun e => !bm.edgeIsContiguous e)

/-- Edges with `calc_length() <= epsilon_len`. -/
def badDegenerateEdges (bm : BMesh) (epsLen : ℚ) : List (ℕ × ℕ) :=
  bm.edges.filter (fun e => bm.edgeLenLE e epsLen)

/-- Face indices with `calc_area() <= epsilon_area`. -/
def badDegenerateFaces (bm : BMesh) (epsArea : ℚ) : List ℕ :=
  (List.range bm.faces.length).filter
    (fun i => bm.faceAreaLE (bm.faces.getD i default) epsArea)

/-- Vertices with no `link_edges`. -/
def badLooseVerts (bm : BMesh) : List ℕ :=
  (List.range bm.verts.length).filter (fun v => (bm.vertEdges v).isEmpty)

/-- The duplicate-vertex accumulation of `_check_bm_duplicate_vertices`:
for each vertex in order, if its range group holds more than one index,
append the whole group. -/
def badDuplicateVerts (bm : BMesh) (epsLen : ℚ) : List ℕ :=
  (List.range bm.verts.length).foldl
    (fun acc i =>
      let g := bm.vertGroup epsLen i
      if 1 < g.length then acc ++ g else acc)
    []

-- Diagnostics

/-- The failure kinds surfaced by the quality and intersection checks. -/
inductive FailKind where
  | nonManifoldVerts
  | nonManifoldEdges
  | inconsistentNormals
  | degenerateEdges
  | degenerateFaces
  | looseVerts
  | duplicateVerts
  | intersection
deriving DecidableEq

/-- The offending elements carried by a failure. -/
inductive BadElems where
  | verts (l : List ℕ)
  | edges (l : List (ℕ × ℕ))
  | faces (l : List ℕ)
deriving DecidableEq

/-- A typed quality failure: the `BFException` of a failed check, with
the offending elements passed to `_raise_bad_geometry`. -/
structure Fail where
  kind : FailKind
  bad : BadElems
deriving DecidableEq

/-- Six times the signed volume enclosed by the triangle mesh
(divergence-theorem sum); positive for a closed consistently-wound mesh
with outward normals, negative with inward normals. -/
def BMesh.signedVol6 (bm : BMesh) : ℚ :=
  (bm.faces.map (fun f =>
    Vec3.dot (bm.verts.getD f.v0 default)
      (Vec3.cross (bm.verts.getD f.v1 default)
        (bm.verts.getD f.v2 default)))).sum

/-- Reverse a triangle's loop (flip its normal). -/
def Tri.flip (f : Tri) : Tri :=
  ⟨f.v0, f.v2, f.v1, f.mat⟩

/-- Modelled from the library contract of
`bmesh.ops.recalc_face_normals` (compute outward normals), for the state
in which the source invokes it — a consistently wound mesh that just
passed the contiguity check: if the winding points inward (negative
signed volume) every face is flipped, otherwise the mesh is unchanged. -/
def recalcFaceNormals (bm : BMesh) : BMesh :=
  if bm.signedVol6 < 0 then ⟨bm.verts, bm.faces.map Tri.flip⟩ else bm

-- The seven `_check_bm_*` functions.  Each returns the (possibly
-- modified) bmesh together with `some fail` when it raises.  The
-- `protect` flag is threaded as in the source.

/-- `_check_bm_manifold_verts`. -/
def _check_bm_manifold_verts (bm : BMesh) (epsLen epsArea : ℚ)
    (protect : Bool) : BMesh × Option Fail :=
  let bad := badManifoldVerts bm
  if bad.isEmpty then (bm, none)
  else (bm, some ⟨.nonManifoldVerts, .verts bad⟩)

/-- `_check_bm_manifold_edges`. -/
def _check_bm_manifold_edges (bm : BMesh) (epsLen epsArea : ℚ)
    (protect : Bool) : BMesh × Option Fail :=
  let bad := badManifoldEdges bm
  if bad.isEmpty then (bm, none)
  else (bm, some ⟨.nonManifoldEdges, .edges bad⟩)

/-- `_check_bm_normals`: detection is pure, but on the success path with
`protect = False` the source additionally runs
`bmesh.ops.recalc_face_normals`. -/
def _check_bm_normals (bm : BMesh) (epsLen epsArea : ℚ)
    (protect : Bool) : BMesh × Option Fail :=
  let bad := badContiguousEdges bm
  if bad.isEmpty then
    (if protect then bm else recalcFaceNormals bm, none)
  else (bm, some ⟨.inconsistentNormals, .edges bad⟩)

/-- `_check_bm_degenerate_edges`. -/
def _check_bm_degenerate_edges (bm : BMesh) (epsLen epsArea : ℚ)
    (protect : Bool) : BMesh × Option Fail :=
  let bad := badDegenerateEdges bm epsLen
  if bad.isEmpty then (bm, none)
  else (bm, some ⟨.degenerateEdges, .edges bad⟩)

/-- `_check_bm_degenerate_faces`. -/
def _check_bm_degenerate_faces (bm : BMesh) (epsLen epsArea : ℚ)
    (protect : Bool) : BMesh × Option Fail :=
  let bad := badDegenerateFaces bm epsArea
  if bad.isEmpty then (bm, none)
  else (bm, some ⟨.degenerateFaces, .faces bad⟩)

/-- `_check_bm_loose_vertices`. -/
def _check_bm_loose_vertices (bm : BMesh) (epsLen epsArea : ℚ)
    (protect : Bool) : BMesh × Option Fail :=
  let bad := badLooseVerts bm
  if bad.isEmpty then (bm, none)
  else (bm, some ⟨.looseVerts, .verts bad⟩)

/-- `_check_bm_duplicate_vertices`. -/
def _check_bm_duplicate_vertices (bm : BMesh) (epsLen epsArea : ℚ)
    (protect : Bool) : BMesh × Option Fail :=
  let bad := badDuplicateVerts bm epsLen
  if bad.isEmpty then (bm, none)
  else (bm, some ⟨.duplicateVerts, .verts bad⟩)

/-- `_check_bm_quality`: the seven checks in the source's order, each
raise aborting the rest (lines 76-82 of `calc_trisurfaces.py`). -/
def _check_bm_quality (bm : BMesh) (epsLen epsArea : ℚ)
    (protect : Bool) : BMesh × Option Fail :=
  match _check_bm_manifold_verts bm epsLen epsArea protect with
  | (bm1, some f) => (bm1, some f)
  | (bm1, none) =>
  match _check_bm_manifold_edges bm1 epsLen epsArea protect with
  | (bm2, some f) => (bm2, some f)
  | (bm2, none) =>
  match _check_bm_degenerate_edges bm2 epsLen epsArea protect with
  | (bm3, some f) => (bm3, some f)
  | (bm3, none) =>
  match _check_bm_degenerate_faces bm3 epsLen epsArea protect with
  | (bm4, some f) => (bm4, some f)
  | (bm4, none) =>
  match _check_bm_loose_vertices bm4 epsLen epsArea protect with
  | (bm5, some f) => (bm5, some f)
  | (bm5, none) =>
  match _check_bm_duplicate_vertices bm5 epsLen epsArea protect with
  | (bm6, some f) => (bm6, some f)
  | (bm6, none) =>
  _check_bm_normals bm6 epsLen epsArea protect

/-- The seven checks' diagnostics on a fixed mesh, in the source's
execution order (normals last). -/
def qualityDiags (bm : BMesh) (epsLen epsArea : ℚ) : List (Option Fail) :=
  [(_check_bm_manifold_verts bm epsLen epsArea true).2,
   (_check_bm_manifold_edges bm epsLen epsArea true).2,
   (_check_bm_degenerate_edges bm epsLen epsArea true).2,
   (_check_bm_degenerate_faces bm epsLen epsArea true).2,
   (_check_bm_loose_vertices bm epsLen epsArea true).2,
   (_check_bm_duplicate_vertices bm epsLen epsArea true).2,
   (_check_bm_normals bm epsLen epsArea true).2]

-- Materials (`_get_materials`)

/-- A host material: its name and its `bf_surf_export` flag. -/
structure Material where
  name : String
  bf_surf_export : Bool
deriving DecidableEq

/-- A material slot: `none` when the slot is unbound. -/
abbrev MatSlot := Option Material

/-- The precondition failures of `_get_materials`. -/
inductive MatErr where
  | noMaterial
  | emptyMaterialSlot
  | materialNotExported (n : String)
deriving DecidableEq

/-- The slot scan of `_get_materials`: walk the slots in order,
raising at the first unbound or non-exportable slot, accumulating the
referenced names. -/
def materialsLoop : List MatSlot → List String → Except MatErr (List String)
  | [], acc => .ok acc
  | none :: _, _ => .error .emptyMaterialSlot
  | some ma :: rest, acc =>
      if ma.bf_surf_export then materialsLoop rest (acc ++ [ma.name])
      else .error (.materialNotExported ma.name)

/-- `_get_materials`: the referenced material names of the object's
slots, or the first precondition failure. -/
def _get_materials (slots : List MatSlot) : Except MatErr (List String) :=
  if slots.isEmpty then .error .noMaterial
  else materialsLoop slots []

-- Host object and bmesh extraction

/-- A polygonal input face: its vertex loop and its material index. -/
structure PolyFace where
  loop : List ℕ
  mat : ℕ
deriving DecidableEq

/-- The host object's polygonal mesh data. -/
structure PolyMesh where
  verts : List Vec3
  faces : List PolyFace
deriving DecidableEq

/-- An affine transform: three linear rows plus a translation. -/
structure Aff where
  r0 : Vec3
  r1 : Vec3
  r2 : Vec3
  t : Vec3
deriving DecidableEq

/-- Apply an affine transform to a point. -/
def Aff.apply (m : Aff) (p : Vec3) : Vec3 :=
  ⟨Vec3.dot m.r0 p + m.t.x, Vec3.dot m.r1 p + m.t.y, Vec3.dot m.r2 p + m.t.z⟩

/-- The identity transform. -/
def Aff.idT : Aff :=
  ⟨⟨1, 0, 0⟩, ⟨0, 1, 0⟩, ⟨0, 0, 1⟩, ⟨0, 0, 0⟩⟩

/-- Composition: `(a.comp b).apply p = a.apply (b.apply p)`. -/
def Aff.comp (a b : Aff) : Aff :=
  let row := fun (r : Vec3) =>
    ⟨r.x * b.r0.x + r.y * b.r1.x + r.z * b.r2.x,
     r.x * b.r0.y + r.y * b.r1.y + r.z * b.r2.y,
     r.x * b.r0.z + r.y * b.r1.z + r.z * b.r2.z⟩
  ⟨row a.r0, row a.r1, row a.r2, a.apply b.t⟩

/-- Determinant of the linear part. -/
def Aff.det (m : Aff) : ℚ :=
  Vec3.dot m.r0 (Vec3.cross m.r1 m.r2)

/-- `matrix_world.inverted()`: the affine inverse via the adjugate
(identity when the linear part is singular, which no valid placement
is). -/
def Aff.inv (m : Aff) : Aff :=
  let d := m.det
  if d = 0 then Aff.idT
  else
    let c0 := Vec3.cross m.r1 m.r2
    let c1 := Vec3.cross m.r2 m.r0
    let c2 := Vec3.cross m.r0 m.r1
    let s0 : Vec3 := ⟨c0.x / d, c1.x / d, c2.x / d⟩
    let s1 : Vec3 := ⟨c0.y / d, c1.y / d, c2.y / d⟩
    let s2 : Vec3 := ⟨c0.z / d, c1.z / d, c2.z / d⟩
    let ti : Vec3 :=
      ⟨-(Vec3.dot s0 m.t), -(Vec3.dot s1 m.t), -(Vec3.dot s2 m.t)⟩
    ⟨s0, s1, s2, ti⟩

/-- A host object snapshot: material slots, polygonal mesh data and
world placement. -/
structure HostOb where
  slots : List MatSlot
  mesh : PolyMesh
  matrix_world : Aff
deriving DecidableEq

/-- Fan-triangulate one polygonal face from its vertex 0. -/
def fanTriangulate (f : PolyFace) : List Tri :=
  match f.loop with
  | a :: b :: rest =>
      (List.range rest.length).map (fun i =>
        ⟨a, (b :: rest).getD i 0, rest.getD i 0, f.mat⟩)
  | _ => []

/-- Modelled from the spec: `utils.get_object_bmesh` — produce the
triangulated bmesh snapshot of the object's mesh, fan-triangulating
every n-gon from its vertex 0, with vertices transformed by the given
`matrix` when present, else by the object's world placement when
`world` is set, else left in local coordinates.  (The helper lives in
`geometry/utils.py`, outside the provided sources.) -/
def get_object_bmesh (ob : HostOb) (world : Bool) (matrix : Option Aff) :
    BMesh :=
  let m : Aff :=
    match matrix with
    | some m => m
    | none => if world then ob.matrix_world else Aff.idT
  ⟨ob.mesh.verts.map m.apply, ob.mesh.faces.flatMap fanTriangulate⟩

-- Trisurface export (`get_trisurface`)

/-- The outcomes that abort `get_trisurface`. -/
inductive TriErr where
  | material (e : MatErr)
  | quality (f : Fail)
deriving DecidableEq

/-- The exported surface: material names, scaled vertices and 1-based
quadruples `(v1, v2, v3, material_index)`. -/
structure TriSurface where
  mas : List String
  verts : List Vec3
  faces : List (ℕ × ℕ × ℕ × ℕ)
deriving DecidableEq

/-- `get_trisurface`: materials first, then the world-space triangulated
bmesh, then (when `check`) the quality gate with `protect=True`, then
the scaled vertex list and the 1-based face quadruples. -/
def get_trisurface (ob : HostOb) (epsLen epsArea : ℚ)
    (scale_length : ℚ) (check : Bool) : Except TriErr TriSurface :=
  match _get_materials ob.slots with
  | .error e => .error (.material e)
  | .ok mas =>
    let bm := get_object_bmesh ob true none
    match (if check then (_check_bm_quality bm epsLen epsArea true).2
           else none) with
    | some f => .error (.quality f)
    | none =>
      .ok ⟨mas,
        bm.verts.map (fun c =>
          ⟨c.x * scale_length, c.y * scale_length, c.z * scale_length⟩),
        bm.faces.map (fun f => (f.v0 + 1, f.v1 + 1, f.v2 + 1, f.mat + 1))⟩

-- Intersection detection (`check_intersections`)

/-- The epsilon-inflated axis-aligned bound of a triangle (leaf bound of
`BVHTree.FromBMesh(bm, epsilon)`), as (min corner, max corner). -/
def triBound (bm : BMesh) (f : Tri) (eps : ℚ) : Vec3 × Vec3 :=
  let p0 := bm.verts.getD f.v0 default
  let p1 := bm.verts.getD f.v1 default
  let p2 := bm.verts.getD f.v2 default
  (⟨min p0.x (min p1.x p2.x) - eps, min p0.y (min p1.y p2.y) - eps,
    min p0.z (min p1.z p2.z) - eps⟩,
   ⟨max p0.x (max p1.x p2.x) + eps, max p0.y (max p1.y p2.y) + eps,
    max p0.z (max p1.z p2.z) + eps⟩)

/-- Whether two axis-aligned bounds overlap (interval overlap on every
axis). -/
def boundsOverlap (a b : Vec3 × Vec3) : Bool :=
  decide (a.1.x ≤ b.2.x) && decide (b.1.x ≤ a.2.x) &&
  decide (a.1.y ≤ b.2.y) && decide (b.1.y ≤ a.2.y) &&
  decide (a.1.z ≤ b.2.z) && decide (b.1.z ≤ a.2.z)

/-- Whether two triangles share a vertex index. -/
def sharesVert (f g : Tri) : Bool :=
  f.vertIdxs.any (fun v => v ∈ g.vertIdxs)

/-- Modelled from the spec's account of `mathutils.bvhtree` overlap:
the pairs `(i, j)` of triangle indices of the two meshes whose
epsilon-inflated leaf bounds overlap; a query of a tree against itself
skips pairs of triangles sharing a vertex, so adjacency is never
reported as intersection. -/
def bvhOverlap (a b : BMesh) (eps : ℚ) (sameTree : Bool) :
    List (ℕ × ℕ) :=
  (List.range a.faces.length).flatMap (fun i =>
    ((List.range b.faces.length).filter (fun j =>
      (!(sameTree && sharesVert (a.faces.getD i default)
          (b.faces.getD j default))) &&
      boundsOverlap (triBound a (a.faces.getD i default) eps)
        (triBound b (b.faces.getD j default) eps))).map (fun j => (i, j)))

/-- `_get_bm_intersected_faces`: the distinct first components of the
overlapping pairs (the Python set, kept in first-occurrence order). -/
def _get_bm_intersected_faces (a b : BMesh) (eps : ℚ)
    (sameTree : Bool) : List ℕ :=
  dedupFirstNat ((bvhOverlap a b eps sameTree).map (fun p => p.1))

/-- `check_intersections`: self-intersections of `ob`, then for each
other object the relative transform
`ob.matrix_world.inverted() @ other_ob.matrix_world` is computed and a
second bmesh is built with that matrix — from `ob` itself, exactly as
the source passes `ob=ob` on line 195 — and tested against the primary
tree.  Returns the accumulated bad face indices (nonempty means the
`Intersection detected` failure is raised). -/
def check_intersections (ob : HostOb) (other_obs : List HostOb)
    (epsLen : ℚ) : List ℕ :=
  let bm := get_object_bmesh ob false none
  let selfBad := _get_bm_intersected_faces bm bm epsLen true
  let crossBad := other_obs.flatMap (fun other_ob =>
    let matrix := (Aff.inv ob.matrix_world).comp other_ob.matrix_world
    let other_bm := get_object_bmesh ob false (some matrix)
    _get_bm_intersected_faces bm other_bm epsLen false)
  selfBad ++ crossBad

/-- Modelled from the spec: the intended cross-mesh check — the OTHER
object's mesh is brought into the primary frame by the relative
transform before its hierarchy is built. -/
def check_intersections_spec (ob : HostOb) (other_obs : List HostOb)
    (epsLen : ℚ) : List ℕ :=
  let bm := get_object_bmesh ob false none
  let selfBad := _get_bm_intersected_faces bm bm epsLen true
  let crossBad := other_obs.flatMap (fun other_ob =>
    let matrix := (Aff.inv ob.matrix_world).comp other_ob.matrix_world
    let other_bm := get_object_bmesh other_ob false (some matrix)
    _get_bm_intersected_faces bm other_bm epsLen false)
  selfBad ++ crossBad

-- Bad-geometry reporter (`_raise_bad_geometry`)

/-- The host-side selection state written by the unprotected branch. -/
structure SelState where
  sverts : List ℕ
  sedges : List (ℕ × ℕ)
  sfaces : List ℕ
deriving DecidableEq

/-- The host scene state `_raise_bad_geometry` can touch: the object's
selection, its modifier stack, its mesh data and the editor's select
mode. -/
structure HostState where
  sel : SelState
  modifiers : List String
  meshData : BMesh
  selectMode : Option String
deriving DecidableEq

/-- `_raise_bad_geometry`: always raises `BFException(ob, msg)` (the
returned string); under `protect` it raises at once, otherwise it first
deselects everything, selects the bad elements, clears the object's
modifiers, writes the bmesh back into the object's mesh data and
switches the editor's select mode. -/
def _raise_bad_geometry (st : HostState) (bm : BMesh) (msg : String)
    (protect : Bool) (bad_verts : List ℕ) (bad_edges : List (ℕ × ℕ))
    (bad_faces : List ℕ) : String × HostState :=
  if protect then (msg, st)
  else
    let selType : Option String :=
      if !bad_verts.isEmpty then some "VERT"
      else if !bad_edges.isEmpty then some "EDGE"
      else if !bad_faces.isEmpty then some "FACE"
      else none
    (msg,
     { sel := ⟨bad_verts, bad_edges, bad_faces⟩
       modifiers := []
       meshData := bm
       selectMode := selType })

-- Concrete meshes used by the witnesses and counterexamples.

/-- The vertices of the reference tetrahedron. -/
def tetraVerts : List Vec3 :=
  [⟨0, 0, 0⟩, ⟨1, 0, 0⟩, ⟨0, 1, 0⟩, ⟨0, 0, 1⟩]

/-- A closed tetrahedron with consistent outward winding. -/
def tetra : BMesh :=
  ⟨tetraVerts, [⟨0, 2, 1, 0⟩, ⟨0, 1, 3, 0⟩, ⟨1, 2, 3, 0⟩, ⟨0, 3, 2, 0⟩]⟩

/-- The tetrahedron with its first face's winding flipped: still a
closed manifold, but the three edges of that face are traversed twice
in the same direction (inconsistent normals). -/
def flippedTetra : BMesh :=
  ⟨tetraVerts, [⟨0, 1, 2, 0⟩, ⟨0, 1, 3, 0⟩, ⟨1, 2, 3, 0⟩, ⟨0, 3, 2, 0⟩]⟩

/-- The tetrahedron with every face flipped: consistently wound but
inward-facing (negative signed volume). -/
def inwardTetra : BMesh :=
  ⟨tetraVerts, [⟨0, 1, 2, 0⟩, ⟨0, 3, 1, 0⟩, ⟨1, 3, 2, 0⟩, ⟨0, 2, 3, 0⟩]⟩

/-- A host object carrying one unit triangle near the origin, with one
exportable material and identity placement. -/
def triObA : HostOb :=
  ⟨[some ⟨"MA", true⟩],
   ⟨[⟨0, 0, 0⟩, ⟨1, 0, 0⟩, ⟨0, 1, 0⟩], [⟨[0, 1, 2], 0⟩]⟩,
   Aff.idT⟩

/-- A host object carrying one unit triangle far from the origin
(around (100,100,100)), with identity placement. -/
def triObFar : HostOb :=
  ⟨[some ⟨"MB", true⟩],
   ⟨[⟨100, 100, 100⟩, ⟨101, 100, 100⟩, ⟨100, 101, 100⟩], [⟨[0, 1, 2], 0⟩]⟩,
   Aff.idT⟩

/-- A host object carrying the reference tetrahedron as polygonal data,
with one exportable material and identity placement. -/
def tetraOb : HostOb :=
  ⟨[some ⟨"MA", true⟩],
   ⟨tetraVerts,
    [⟨[0, 2, 1], 0⟩, ⟨[0, 1, 3], 0⟩, ⟨[1, 2, 3], 0⟩, ⟨[0, 3, 2], 0⟩]⟩,
   Aff.idT⟩

/-- The error component of a `_get_materials` result. -/
def matErrOf : Except MatErr (List String) → Option MatErr
  | .error e => some e
  | .ok _ => none

/-- The materials list of a `get_trisurface` result. -/
def trisurfMas : Except TriErr TriSurface → Option (List String)
  | .ok s => some s.mas
  | .error _ => none

/-- The host object carrying the reference tetrahedron with two slots
both bound to the same material. -/
def tetraOb2 : HostOb :=
  ⟨[some ⟨"MA", true⟩, some ⟨"MA", true⟩],
   ⟨tetraVerts,
    [⟨[0, 2, 1], 0⟩, ⟨[0, 1, 3], 0⟩, ⟨[1, 2, 3], 0⟩, ⟨[0, 3, 2], 0⟩]⟩,
   Aff.idT⟩

-- Theorems

/-- Claim C1, counterexample: on the flipped tetrahedron with a large
`epsilon_len` the normal-consistency check fails, yet the diagnostic the
validator returns is the degenerate-edge one — so normal consistency is
not run third with the later checks skipped, contrary to the claim's
order (the source runs it last). -/
theorem C1_counterexample :
    ((_check_bm_quality flippedTetra 10 (1 / 1000000) true).2.map Fail.kind
        = some FailKind.degenerateEdges) ∧
    ((_check_bm_normals flippedTetra 10 (1 / 1000000) true).2.map Fail.kind
        = some FailKind.inconsistentNormals) := by
  with_unfolding_all decide

/-- Claim C1 (amended): the validator runs the seven checks in the
source's fixed order — manifold vertices, manifold edges, degenerate
edges, degenerate faces, loose vertices, duplicate vertices, and
normal consistency LAST — and for every mesh it stops at the first
failing check: the diagnostic returned is the first failing check's, in
that order, and later checks contribute nothing. -/
theorem C1_fail_fast (bm : BMesh) (epsLen epsArea : ℚ) (protect : Bool) :
    (_check_bm_quality bm epsLen epsArea protect).2
      = (qualityDiags bm epsLen epsArea).findSome? id := by
  unfold _check_bm_quality qualityDiags
  unfold _check_bm_manifold_verts _check_bm_manifold_edges
    _check_bm_degenerate_edges _check_bm_degenerate_faces
    _check_bm_loose_vertices _check_bm_duplicate_vertices _check_bm_normals
  by_cases h1 : (badManifoldVerts bm).isEmpty <;>
  by_cases h2 : (badManifoldEdges bm).isEmpty <;>
  by_cases h3 : (badDegenerateEdges bm epsLen).isEmpty <;>
  by_cases h4 : (badDegenerateFaces bm epsArea).isEmpty <;>
  by_cases h5 : (badLooseVerts bm).isEmpty <;>
  by_cases h6 : (badDuplicateVerts bm epsLen).isEmpty <;>
  by_cases h7 : (badContiguousEdges bm).isEmpty <;>
  simp [h1, h2, h3, h4, h5, h6, h7, List.findSome?]

/-- Claim C2, counterexample: on the inward-wound tetrahedron the
normal-consistency check finds no offending elements, yet with
`protect = false` it hands back a changed mesh — the source runs
`bmesh.ops.recalc_face_normals` on the success path, flipping every
face of the inward mesh.  So not every check leaves the mesh model
as received for every value of the protect flag. -/
theorem C2_counterexample :
    (_check_bm_normals inwardTetra 1 1 false).2 = none ∧
    (_check_bm_normals inwardTetra 1 1 false).1 ≠ inwardTetra := by
  with_unfolding_all decide

/-- Claim C2 (amended): six of the seven checks return the mesh model
exactly as received for every protect flag, and the normal-consistency
check does so whenever `protect` is true; only the normals check with
`protect = false` may rewrite the mesh (normal recalculation) on
success. -/
theorem C2_checks_pure (bm : BMesh) (epsLen epsArea : ℚ) (protect : Bool) :
    (_check_bm_manifold_verts bm epsLen epsArea protect).1 = bm ∧
    (_check_bm_manifold_edges bm epsLen epsArea protect).1 = bm ∧
    (_check_bm_degenerate_edges bm epsLen epsArea protect).1 = bm ∧
    (_check_bm_degenerate_faces bm epsLen epsArea protect).1 = bm ∧
    (_check_bm_loose_vertices bm epsLen epsArea protect).1 = bm ∧
    (_check_bm_duplicate_vertices bm epsLen epsArea protect).1 = bm ∧
    (_check_bm_normals bm epsLen epsArea true).1 = bm := by
  refine ⟨?_, ?_, ?_, ?_, ?_, ?_, ?_⟩ <;>
    simp only [_check_bm_manifold_verts, _check_bm_manifold_edges,
      _check_bm_degenerate_edges, _check_bm_degenerate_faces,
      _check_bm_loose_vertices, _check_bm_duplicate_vertices,
      _check_bm_normals] <;>
    split <;> rfl

/-- Claim C10: with the protect flag set, `_raise_bad_geometry` raises
the typed exception at once and atomically — the returned host state is
exactly the input state: no selection change, no modifier removal, no
mesh write-back. -/
theorem C10_protect_atomic (st : HostState) (bm : BMesh) (msg : String)
    (bad_verts : List ℕ) (bad_edges : List (ℕ × ℕ)) (bad_faces : List ℕ) :
    _raise_bad_geometry st bm msg true bad_verts bad_edges bad_faces
      = (msg, st) := by
  rfl

/-- Claim C3: the cross-mesh branch builds the second hierarchy from the
PRIMARY object's bmesh transformed by the relative matrix (the source
passes `ob=ob`, not `ob=other_ob`, on line 195).  With a primary unit
triangle at the origin and a distant other object, both with identity
placements, the code reports the primary's face 0 as intersecting,
while transforming the other mesh's vertices as the claim describes
yields no intersection at all. -/
theorem C3_wrong_mesh_for_other :
    check_intersections triObA [triObFar] (1 / 100) = [0] ∧
    check_intersections_spec triObA [triObFar] (1 / 100) = [] := by
  with_unfolding_all decide

/-- Claim C4, counterexample: an object whose two material slots bind
the same material exports the materials list `["MA", "MA"]` — the name
appears once per slot, so the list is not deduplicated. -/
theorem C4_counterexample :
    trisurfMas (get_trisurface tetraOb2 (1 / 1000) (1 / 1000000) 1 true)
      = some ["MA", "MA"] ∧
    ¬ (["MA", "MA"] : List String).Nodup := by
  with_unfolding_all decide

/-- The name a bound slot contributes to the materials list. -/
def slotName (s : MatSlot) : String :=
  (s.getD ⟨"", true⟩).name

/-- The precondition failure an individual slot triggers, if any. -/
def slotErr : MatSlot → Option MatErr
  | none => some .emptyMaterialSlot
  | some m =>
      if m.bf_surf_export then none else some (.materialNotExported m.name)

/-- When every slot is bound and exportable the slot scan succeeds with
one name per slot, in slot order, appended to the accumulator. -/
theorem materialsLoop_ok (slots : List MatSlot)
    (h : ∀ s ∈ slots, s.map Material.bf_surf_export = some true) :
    ∀ acc, materialsLoop slots acc = .ok (acc ++ slots.map slotName) := by
  induction slots with
  | nil => intro acc; simp [materialsLoop]
  | cons s rest ih =>
    intro acc
    match s with
    | none => exact absurd (h none (by simp)) (by simp)
    | some m =>
      have hm : m.bf_surf_export = true := by simpa using h (some m) (by simp)
      have hr := ih (fun s hs => h s (List.mem_cons_of_mem _ hs)) (acc ++ [m.name])
      simp only [materialsLoop, hm, if_true, hr, List.map_cons, slotName,
        Option.getD_some]
      simp

/-- The slot scan raises the failure of the first offending slot. -/
theorem materialsLoop_err (slots : List MatSlot) (e : MatErr)
    (h : slots.findSome? slotErr = some e) :
    ∀ acc, materialsLoop slots acc = .error e := by
  induction slots with
  | nil => simp [List.findSome?] at h
  | cons s rest ih =>
    intro acc
    match s with
    | none =>
      simp only [List.findSome?_cons, slotErr] at h
      cases h
      simp [materialsLoop]
    | some m =>
      by_cases hm : m.bf_surf_export
      · simp only [List.findSome?_cons, slotErr, hm, if_true] at h
        simp [materialsLoop, hm, ih h]
      · simp only [List.findSome?_cons, slotErr, hm, if_false,
          Bool.false_eq_true] at h
        cases h
        simp [materialsLoop, hm]

/-- Claim C4 (amended): the exported materials list is not
deduplicated — it contains one entry per material slot, in slot order,
so a material bound to several slots appears once per slot. -/
theorem C4_materials_per_slot (slots : List MatSlot)
    (h : ∀ s ∈ slots, s.map Material.bf_surf_export = some true)
    (hne : slots ≠ []) :
    _get_materials slots = .ok (slots.map slotName) := by
  unfold _get_materials
  rw [if_neg (by simpa using hne)]
  simpa using materialsLoop_ok slots h []

/-- Claim C4 witness: two exportable slots bound to distinct materials
yield exactly their names in slot order. -/
theorem C4_materials_witness :
    _get_materials [some ⟨"A", true⟩, some ⟨"B", true⟩] = .ok ["A", "B"] :=
  C4_materials_per_slot [some ⟨"A", true⟩, some ⟨"B", true⟩]
    (by decide) (by decide)

/-- Claim C5, counterexample: an object whose first slot binds a
non-exportable material and whose second slot is unbound fails with
`MaterialNotExported`, not with `EmptyMaterialSlot` — so it is not true
that every object having an unbound slot fails with
`EmptyMaterialSlot`. -/
theorem C5_counterexample :
    (none ∈ ([some ⟨"A", false⟩, none] : List MatSlot)) ∧
    matErrOf (_get_materials [some ⟨"A", false⟩, none])
      = some (.materialNotExported "A") ∧
    MatErr.materialNotExported "A" ≠ MatErr.emptyMaterialSlot := by
  with_unfolding_all decide

/-- Claim C5 (amended): extraction fails with `NoMaterial` on zero
slots; otherwise the slots are scanned in order and the FIRST offending
slot determines the failure — `EmptyMaterialSlot` when it is unbound,
`MaterialNotExported` when its material is flagged non-exportable — and
every such failure is raised before any geometry work: the result is
the materials error, independent of the object's mesh and placement. -/
theorem C5_precondition_failures :
    (∀ (ob : HostOb) (epsLen epsArea s : ℚ) (chk : Bool), ob.slots = [] →
      get_trisurface ob epsLen epsArea s chk
        = .error (.material .noMaterial)) ∧
    (∀ (slots : List MatSlot) (e : MatErr),
      slots.findSome? slotErr = some e → _get_materials slots = .error e) ∧
    (∀ (slots : List MatSlot) (e : MatErr) (mesh1 mesh2 : PolyMesh)
       (M1 M2 : Aff) (epsLen epsArea s : ℚ) (chk : Bool),
      _get_materials slots = .error e →
      get_trisurface ⟨slots, mesh1, M1⟩ epsLen epsArea s chk
          = .error (.material e) ∧
      get_trisurface ⟨slots, mesh1, M1⟩ epsLen epsArea s chk
          = get_trisurface ⟨slots, mesh2, M2⟩ epsLen epsArea s chk) := by
  refine ⟨?_, ?_, ?_⟩
  · intro ob epsLen epsArea s chk hslots
    unfold get_trisurface _get_materials
    rw [hslots]
    rfl
  · intro slots e h
    unfold _get_materials
    have hne : slots ≠ [] := by
      intro hn; rw [hn] at h; simp [List.findSome?] at h
    rw [if_neg (by simpa using hne)]
    exact materialsLoop_err slots e h []
  · intro slots e mesh1 mesh2 M1 M2 epsLen epsArea s chk h
    constructor
    · unfold get_trisurface
      rw [h]
    · unfold get_trisurface
      rw [h]

/-- Claim C5 witness: a slot-free object fails with `NoMaterial`
whatever its geometry. -/
theorem C5_witness :
    get_trisurface ⟨[], ⟨[], []⟩, Aff.idT⟩ 1 1 1 true
      = .error (.material .noMaterial) :=
  C5_precondition_failures.1 ⟨[], ⟨[], []⟩, Aff.idT⟩ 1 1 1 true rfl

/-- A successful slot scan yields one name per remaining slot. -/
theorem materialsLoop_length (slots : List MatSlot) :
    ∀ acc mas, materialsLoop slots acc = .ok mas →
      mas.length = acc.length + slots.length := by
  induction slots with
  | nil =>
    intro acc mas h
    simp only [materialsLoop, Except.ok.injEq] at h
    subst h
    simp
  | cons s rest ih =>
    intro acc mas h
    match s with
    | none => simp [materialsLoop] at h
    | some m =>
      by_cases hm : m.bf_surf_export
      · simp only [materialsLoop, hm, if_true] at h
        have := ih (acc ++ [m.name]) mas h
        simp at this ⊢
        omega
      · simp [materialsLoop, hm] at h

/-- `_get_materials` returns exactly one name per slot. -/
theorem get_materials_length (slots : List MatSlot) (mas : List String)
    (h : _get_materials slots = .ok mas) : mas.length = slots.length := by
  unfold _get_materials at h
  by_cases hne : slots.isEmpty
  · rw [if_pos hne] at h; cases h
  · rw [if_neg hne] at h
    simpa using materialsLoop_length slots [] mas h

/-- Claim C6: on every successful export whose bmesh triangle indices
are in range (a bmesh invariant) and whose face material indices
reference valid slots (the MeshSnapshot invariant), all indices in the
faces list are 1-based: each vertex index lies in
`[1, len(vertices)]` and each material index in `[1, len(materials)]`. -/
theorem C6_one_based_indices (ob : HostOb) (epsLen epsArea s : ℚ)
    (chk : Bool) (srf : TriSurface)
    (hok : get_trisurface ob epsLen epsArea s chk = .ok srf)
    (hidx : ∀ f ∈ (get_object_bmesh ob true none).faces,
      f.v0 < (get_object_bmesh ob true none).verts.length ∧
      f.v1 < (get_object_bmesh ob true none).verts.length ∧
      f.v2 < (get_object_bmesh ob true none).verts.length ∧
      f.mat < ob.slots.length) :
    ∀ q ∈ srf.faces,
      (1 ≤ q.1 ∧ q.1 ≤ srf.verts.length) ∧
      (1 ≤ q.2.1 ∧ q.2.1 ≤ srf.verts.length) ∧
      (1 ≤ q.2.2.1 ∧ q.2.2.1 ≤ srf.verts.length) ∧
      (1 ≤ q.2.2.2 ∧ q.2.2.2 ≤ srf.mas.length) := by
  cases hmat : _get_materials ob.slots with
  | error e => simp [get_trisurface, hmat] at hok
  | ok mas =>
    simp only [get_trisurface, hmat] at hok
    cases hq : (if chk then
        (_check_bm_quality (get_object_bmesh ob true none) epsLen epsArea
          true).2 else none) with
    | some f => rw [hq] at hok; cases hok
    | none =>
      rw [hq] at hok
      cases hok
      intro q hqmem
      simp only [List.mem_map] at hqmem
      obtain ⟨f, hf, hfq⟩ := hqmem
      obtain ⟨h0, h1, h2, h3⟩ := hidx f hf
      subst hfq
      have hlen : mas.length = ob.slots.length :=
        get_materials_length ob.slots mas hmat
      simp only [List.length_map]
      omega

/-- The surface `get_trisurface` produces for the tetrahedron object at
unit scale. -/
def tetraSurf : TriSurface :=
  ⟨["MA"], tetraVerts,
   [(1, 3, 2, 1), (1, 2, 4, 1), (2, 3, 4, 1), (1, 4, 3, 1)]⟩

/-- Claim C6 witness: the first face the tetrahedron object exports at
unit scale, `(1, 3, 2, 1)`, has all its indices in the 1-based ranges,
with the in-range hypotheses discharged concretely. -/
theorem C6_witness :
    (1 ≤ 1 ∧ 1 ≤ tetraSurf.verts.length) ∧
    (1 ≤ 3 ∧ 3 ≤ tetraSurf.verts.length) ∧
    (1 ≤ 2 ∧ 2 ≤ tetraSurf.verts.length) ∧
    (1 ≤ 1 ∧ 1 ≤ tetraSurf.mas.length) :=
  C6_one_based_indices tetraOb (1 / 1000) (1 / 1000000) 1 true tetraSurf
    (by with_unfolding_all rfl) (by with_unfolding_all decide)
    (1, 3, 2, 1) (by decide)

/-- Scale the vertex coordinates of an export result by `k`, leaving
materials, faces and failures untouched. -/
def scaleSurfExc (k : ℚ) :
    Except TriErr TriSurface → Except TriErr TriSurface
  | .ok s => .ok ⟨s.mas, s.verts.map (Vec3.smul k), s.faces⟩
  | .error e => .error e

/-- Claim C7: every output vertex coordinate is the bmesh coordinate
times the single scalar `scale_length`, and multiplying the scale by
`k` multiplies every output vertex coordinate by exactly `k` while the
materials list, faces list and any failure are identical. -/
theorem C7_unit_scale (ob : HostOb) (epsLen epsArea s k : ℚ)
    (chk : Bool) :
    get_trisurface ob epsLen epsArea (s * k) chk
      = scaleSurfExc k (get_trisurface ob epsLen epsArea s chk) ∧
    (∀ srf, get_trisurface ob epsLen epsArea s chk = .ok srf →
      srf.verts = (get_object_bmesh ob true none).verts.map
        (fun c => ⟨c.x * s, c.y * s, c.z * s⟩)) := by
  constructor
  · cases hmat : _get_materials ob.slots with
    | error e => simp [get_trisurface, hmat, scaleSurfExc]
    | ok mas =>
      cases hq : (if chk then
          (_check_bm_quality (get_object_bmesh ob true none) epsLen epsArea
            true).2 else none) with
      | some f => simp [get_trisurface, hmat, hq, scaleSurfExc]
      | none =>
        simp only [get_trisurface, hmat, hq, scaleSurfExc, List.map_map,
          Except.ok.injEq, TriSurface.mk.injEq, true_and, and_true]
        apply List.map_congr_left
        intro c hc
        simp only [Function.comp_apply, Vec3.smul, Vec3.mk.injEq]
        refine ⟨by ring, by ring, by ring⟩
  · intro srf hok
    cases hmat : _get_materials ob.slots with
    | error e => simp [get_trisurface, hmat] at hok
    | ok mas =>
      simp only [get_trisurface, hmat] at hok
      cases hq : (if chk then
          (_check_bm_quality (get_object_bmesh ob true none) epsLen epsArea
            true).2 else none) with
      | some f => rw [hq] at hok; cases hok
      | none => rw [hq] at hok; cases hok; rfl

/-- Claim C7 witness: the tetrahedron export at scale 1 versus scale
`1 * 2`, with the vertex-map conjunct instantiated concretely. -/
theorem C7_witness :
    get_trisurface tetraOb (1 / 1000) (1 / 1000000) (1 * 2) true
      = scaleSurfExc 2 (get_trisurface tetraOb (1 / 1000) (1 / 1000000)
          1 true) ∧
    tetraSurf.verts = (get_object_bmesh tetraOb true none).verts.map
      (fun c => ⟨c.x * 1, c.y * 1, c.z * 1⟩) :=
  ⟨(C7_unit_scale tetraOb (1 / 1000) (1 / 1000000) 1 2 true).1,
   (C7_unit_scale tetraOb (1 / 1000) (1 / 1000000) 1 2 true).2 tetraSurf
     (by with_unfolding_all rfl)⟩

/-- The exact boolean area test agrees with the standard
cross-product-based triangle area (half the norm of the cross product)
compared against the tolerance over the reals. -/
theorem faceAreaLE_iff (bm : BMesh) (f : Tri) (eps : ℚ) :
    bm.faceAreaLE f eps = true ↔
      Real.sqrt ((bm.faceAreaSq4 f : ℚ) : ℝ) / 2 ≤ ((eps : ℚ) : ℝ) := by
  unfold BMesh.faceAreaLE
  rw [Bool.and_eq_true, decide_eq_true_eq, decide_eq_true_eq,
    div_le_iff₀ (by norm_num : (0 : ℝ) < 2), Real.sqrt_le_iff]
  constructor
  · rintro ⟨h1, h2⟩
    have h1r : (0 : ℝ) ≤ (eps : ℝ) := by exact_mod_cast h1
    have h2r : ((bm.faceAreaSq4 f : ℚ) : ℝ) ≤ 4 * ((eps : ℝ) * (eps : ℝ)) := by
      exact_mod_cast h2
    exact ⟨by linarith, by nlinarith⟩
  · rintro ⟨h1, h2⟩
    have h1r : (0 : ℝ) ≤ (eps : ℝ) := by linarith
    have h2r : ((bm.faceAreaSq4 f : ℚ) : ℝ) ≤ 4 * ((eps : ℝ) * (eps : ℝ)) := by
      nlinarith
    exact ⟨by exact_mod_cast h1r, by exact_mod_cast h2r⟩

/-- Claim C9: the degenerate-face check fails exactly on the triangles
whose cross-product-based area is at most `epsilon_area`, and it is
monotone in the tolerance: a face failing at some `epsilon_area` also
fails at every larger one. -/
theorem C9_degenerate_faces (bm : BMesh) (e1 e2 : ℚ) :
    (∀ j, j ∈ badDegenerateFaces bm e1 ↔
      j < bm.faces.length ∧
      Real.sqrt ((bm.faceAreaSq4 (bm.faces.getD j default) : ℚ) : ℝ) / 2
        ≤ ((e1 : ℚ) : ℝ)) ∧
    (e1 ≤ e2 → ∀ j,
      j ∈ badDegenerateFaces bm e1 → j ∈ badDegenerateFaces bm e2) := by
  constructor
  · intro j
    unfold badDegenerateFaces
    rw [List.mem_filter, List.mem_range, faceAreaLE_iff]
  · intro hle j hj
    unfold badDegenerateFaces at hj ⊢
    rw [List.mem_filter] at hj ⊢
    refine ⟨hj.1, ?_⟩
    have h := hj.2
    unfold BMesh.faceAreaLE at h ⊢
    rw [Bool.and_eq_true, decide_eq_true_eq, decide_eq_true_eq] at h ⊢
    obtain ⟨h1, h2⟩ := h
    exact ⟨le_trans h1 hle, by nlinarith⟩

/-- A single triangle collapsed onto a line (zero area). -/
def lineMesh : BMesh :=
  ⟨[⟨0, 0, 0⟩, ⟨1, 0, 0⟩, ⟨2, 0, 0⟩], [⟨0, 1, 2, 0⟩]⟩

/-- Claim C9 witness: the zero-area triangle fails at
`epsilon_area = 1e-5` and, by monotonicity, still fails after raising
the tolerance to 1. -/
theorem C9_witness :
    (1 : ℚ) / 100000 ≤ 1 ∧
    0 ∈ badDegenerateFaces lineMesh (1 / 100000) ∧
    0 ∈ badDegenerateFaces lineMesh 1 :=
  ⟨by norm_num, by with_unfolding_all decide,
   (C9_degenerate_faces lineMesh (1 / 100000) 1).2 (by norm_num) 0
     (by with_unfolding_all decide)⟩

/-- Squared distance is symmetric. -/
theorem Vec3.distSq_comm (a b : Vec3) : a.distSq b = b.distSq a := by
  unfold Vec3.distSq Vec3.normSq Vec3.sub
  ring

/-- Squared distance from a point to itself is zero. -/
theorem Vec3.distSq_self (a : Vec3) : a.distSq a = 0 := by
  unfold Vec3.distSq Vec3.normSq Vec3.sub
  ring

/-- The range query is symmetric in the two vertices. -/
theorem rangeHit_comm (bm : BMesh) (r : ℚ) (i j : ℕ) :
    bm.rangeHit r i j = bm.rangeHit r j i := by
  unfold BMesh.rangeHit
  rw [Vec3.distSq_comm]

/-- With a nonnegative radius every vertex hits its own range query. -/
theorem rangeHit_self (bm : BMesh) (r : ℚ) (i : ℕ) (h : 0 ≤ r) :
    bm.rangeHit r i i = true := by
  unfold BMesh.rangeHit
  simp [h, Vec3.distSq_self, mul_nonneg h h]

/-- A range hit forces the radius to be nonnegative. -/
theorem rangeHit_radius_nonneg (bm : BMesh) (r : ℚ) (i j : ℕ)
    (h : bm.rangeHit r i j = true) : 0 ≤ r := by
  unfold BMesh.rangeHit at h
  rw [Bool.and_eq_true, decide_eq_true_eq, decide_eq_true_eq] at h
  exact h.1

/-- Membership in a vertex's range group. -/
theorem mem_vertGroup (bm : BMesh) (r : ℚ) (i j : ℕ) :
    j ∈ bm.vertGroup r i ↔
      j < bm.verts.length ∧ bm.rangeHit r i j = true := by
  unfold BMesh.vertGroup
  rw [List.mem_filter, List.mem_range]

/-- Range groups carry no duplicate indices. -/
theorem vertGroup_nodup (bm : BMesh) (r : ℚ) (i : ℕ) :
    (bm.vertGroup r i).Nodup :=
  (List.nodup_range _).filter _

/-- A list holding two distinct elements has length above one. -/
theorem two_mem_one_lt {α : Type} (l : List α) (a b : α)
    (ha : a ∈ l) (hb : b ∈ l) (hne : a ≠ b) : 1 < l.length := by
  match l with
  | [] => cases ha
  | [x] =>
    simp only [List.mem_singleton] at ha hb
    subst ha; subst hb
    exact absurd rfl hne
  | x :: y :: rest =>
    simp only [List.length_cons]
    omega

/-- A duplicate-free list of length above one has, for any element `j`,
a member different from `j`. -/
theorem exists_other_of_one_lt {α : Type} (l : List α) (j : α)
    (hnd : l.Nodup) (hlen : 1 < l.length) : ∃ k ∈ l, k ≠ j := by
  match l with
  | [] => simp at hlen
  | [x] => simp at hlen
  | x :: y :: rest =>
    have h1 : x ∉ y :: rest := (List.nodup_cons.mp hnd).1
    have hxy : x ≠ y := fun h => h1 (h ▸ List.mem_cons_self y rest)
    by_cases hx : x = j
    · subst hx
      exact ⟨y, by simp, fun h => hxy h.symm⟩
    · exact ⟨x, by simp, hx⟩

/-- Unrolling the duplicate-vertex accumulation: an index is collected
iff it lies in some examined vertex's range group of size above one. -/
theorem foldl_groups_mem (bm : BMesh) (r : ℚ) (j : ℕ) :
    ∀ (l acc : List ℕ),
      (j ∈ l.foldl (fun acc i =>
          let g := bm.vertGroup r i
          if 1 < g.length then acc ++ g else acc) acc
        ↔ j ∈ acc ∨ ∃ i ∈ l, 1 < (bm.vertGroup r i).length ∧
            j ∈ bm.vertGroup r i) := by
  intro l
  induction l with
  | nil => intro acc; simp
  | cons a t ih =>
    intro acc
    simp only [List.foldl_cons]
    by_cases h : 1 < (bm.vertGroup r a).length
    · simp only [h, if_true]
      rw [ih]
      simp only [List.mem_append]
      constructor
      · rintro ((h1 | h2) | ⟨i, hi, hp⟩)
        · exact Or.inl h1
        · exact Or.inr ⟨a, List.mem_cons_self a t, h, h2⟩
        · exact Or.inr ⟨i, List.mem_cons_of_mem a hi, hp⟩
      · rintro (h1 | ⟨i, hi, hp⟩)
        · exact Or.inl (Or.inl h1)
        · rcases List.mem_cons.mp hi with rfl | hit
          · exact Or.inl (Or.inr hp.2)
          · exact Or.inr ⟨i, hit, hp⟩
    · simp only [h, if_false]
      rw [ih]
      constructor
      · rintro (h1 | ⟨i, hi, hp⟩)
        · exact Or.inl h1
        · exact Or.inr ⟨i, List.mem_cons_of_mem a hi, hp⟩
      · rintro (h1 | ⟨i, hi, hp⟩)
        · exact Or.inl h1
        · rcases List.mem_cons.mp hi with rfl | hit
          · exact absurd hp.1 h
          · exact Or.inr ⟨i, hit, hp⟩

/-- The raw membership condition of the duplicate-vertex report. -/
theorem mem_badDuplicateVerts (bm : BMesh) (r : ℚ) (j : ℕ) :
    j ∈ badDuplicateVerts bm r ↔
      ∃ i, i < bm.verts.length ∧ 1 < (bm.vertGroup r i).length ∧
        j ∈ bm.vertGroup r i := by
  unfold badDuplicateVerts
  rw [foldl_groups_mem]
  simp [List.mem_range]

/-- The duplicate-vertex report holds exactly the vertices having some
OTHER vertex within the radius. -/
theorem mem_badDuplicateVerts_iff (bm : BMesh) (r : ℚ) (j : ℕ) :
    j ∈ badDuplicateVerts bm r ↔
      j < bm.verts.length ∧
      ∃ i, i < bm.verts.length ∧ i ≠ j ∧ bm.rangeHit r j i = true := by
  rw [mem_badDuplicateVerts]
  constructor
  · rintro ⟨i, hi, hlen, hj⟩
    rw [mem_vertGroup] at hj
    obtain ⟨hjlt, hhit⟩ := hj
    refine ⟨hjlt, ?_⟩
    by_cases hij : i = j
    · subst hij
      obtain ⟨k, hk, hkj⟩ :=
        exists_other_of_one_lt (bm.vertGroup r i) i
          (vertGroup_nodup bm r i) hlen
      rw [mem_vertGroup] at hk
      exact ⟨k, hk.1, hkj, hk.2⟩
    · exact ⟨i, hi, hij, by rw [rangeHit_comm]; exact hhit⟩
  · rintro ⟨hjlt, i, hilt, hij, hhit⟩
    have h0r : 0 ≤ r := rangeHit_radius_nonneg bm r j i hhit
    have hjj : j ∈ bm.vertGroup r j :=
      (mem_vertGroup bm r j j).mpr ⟨hjlt, rangeHit_self bm r j h0r⟩
    have hij' : i ∈ bm.vertGroup r j :=
      (mem_vertGroup bm r j i).mpr ⟨hilt, hhit⟩
    exact ⟨j, hjlt, two_mem_one_lt _ i j hij' hjj hij, hjj⟩

/-- Read a vertex of a permuted `ofFn` vertex list. -/
theorem getD_ofFn_vec {n : ℕ} (f : Fin n → Vec3) (k : ℕ) (hk : k < n) :
    (List.ofFn f).getD k default = f ⟨k, hk⟩ := by
  simp [List.getD_eq_getElem?_getD, List.getElem?_ofFn, List.ofFnNthVal, hk]

/-- Claim C8: the duplicate-vertex detector reports exactly the
vertices having at least one other vertex within the radius (so every
member of a coincident group of any size is reported); the relation is
symmetric — when A is within the radius of B both A and B are
reported — and the reported set is invariant under any permutation of
the vertex enumeration. -/
theorem C8_duplicate_detector (bm : BMesh) (r : ℚ) :
    (∀ j, j ∈ badDuplicateVerts bm r ↔
      j < bm.verts.length ∧
      ∃ i, i < bm.verts.length ∧ i ≠ j ∧ bm.rangeHit r j i = true) ∧
    (∀ i j, i < bm.verts.length → j < bm.verts.length →
      bm.rangeHit r i j = true → i ≠ j →
      i ∈ badDuplicateVerts bm r ∧ j ∈ badDuplicateVerts bm r) ∧
    (∀ (σ : Equiv.Perm (Fin bm.verts.length)) (j : Fin bm.verts.length),
      ((j : ℕ) ∈ badDuplicateVerts
          ⟨List.ofFn (fun i => bm.verts.getD ((σ i : ℕ)) default),
           bm.faces⟩ r
        ↔ ((σ j : ℕ) ∈ badDuplicateVerts bm r))) := by
  refine ⟨fun j => mem_badDuplicateVerts_iff bm r j, ?_, ?_⟩
  · intro i j hi hj hhit hij
    constructor
    · rw [mem_badDuplicateVerts_iff]
      exact ⟨hi, j, hj, fun h => hij h.symm, hhit⟩
    · rw [mem_badDuplicateVerts_iff]
      exact ⟨hj, i, hi, hij, by rw [rangeHit_comm]; exact hhit⟩
  · intro σ j
    rw [mem_badDuplicateVerts_iff, mem_badDuplicateVerts_iff]
    constructor
    · rintro ⟨hjlt, i, hilt, hij, hhit⟩
      have hiltn : i < bm.verts.length := by
        simpa [List.length_ofFn] using hilt
      refine ⟨(σ j).isLt, (σ ⟨i, hiltn⟩ : ℕ), (σ ⟨i, hiltn⟩).isLt, ?_, ?_⟩
      · intro h
        have h2 : σ ⟨i, hiltn⟩ = σ j := Fin.val_injective h
        have h3 : (⟨i, hiltn⟩ : Fin bm.verts.length) = j := σ.injective h2
        exact hij (congrArg Fin.val h3)
      · unfold BMesh.rangeHit at hhit ⊢
        rw [show (⟨List.ofFn (fun i => bm.verts.getD ((σ i : ℕ)) default),
              bm.faces⟩ : BMesh).verts
            = List.ofFn (fun i => bm.verts.getD ((σ i : ℕ)) default) from rfl]
          at hhit
        rw [getD_ofFn_vec _ i hiltn, getD_ofFn_vec _ (j : ℕ) j.isLt] at hhit
        simp only [Fin.eta] at hhit
        exact hhit
    · rintro ⟨hjlt, i, hilt, hij, hhit⟩
      refine ⟨by simp [List.length_ofFn], (σ.symm ⟨i, hilt⟩ : ℕ),
        by simp [List.length_ofFn], ?_, ?_⟩
      · intro h
        have : σ.symm ⟨i, hilt⟩ = j := Fin.val_injective h
        have : (⟨i, hilt⟩ : Fin bm.verts.length) = σ j := by
          rw [← this]; simp
        exact hij (congrArg Fin.val this)
      · unfold BMesh.rangeHit
        rw [show (⟨List.ofFn (fun i => bm.verts.getD ((σ i : ℕ)) default),
              bm.faces⟩ : BMesh).verts
            = List.ofFn (fun i => bm.verts.getD ((σ i : ℕ)) default) from rfl]
        rw [getD_ofFn_vec _ _ (σ.symm ⟨i, hilt⟩).isLt,
          getD_ofFn_vec _ (j : ℕ) j.isLt]
        simp only [Fin.eta, Equiv.apply_symm_apply]
        unfold BMesh.rangeHit at hhit
        simpa using hhit

/-- A mesh with two coincident vertices and one distant vertex. -/
def dupMesh : BMesh :=
  ⟨[⟨0, 0, 0⟩, ⟨0, 0, 0⟩, ⟨5, 5, 5⟩], []⟩

/-- Claim C8 witness: on the mesh with two coincident vertices, both
indices 0 and 1 are reported. -/
theorem C8_witness :
    0 ∈ badDuplicateVerts dupMesh (1 / 1000) ∧
    1 ∈ badDuplicateVerts dupMesh (1 / 1000) :=
  (C8_duplicate_detector dupMesh (1 / 1000)).2.1 0 1
    (by with_unfolding_all decide) (by with_unfolding_all decide)
    (by with_unfolding_all decide) (by with_unfolding_all decide)

end BFds
